import Mathlib

/-!
Verification of the p2p reactor shim (`p2p/shim.go`).

The shim bridges the legacy callback-driven reactor interface (`Receive`,
`AddPeer`, `RemovePeer`, `GetChannels`, `OnStart`, `OnStop`) to the new
channel-based p2p interface.  We embed the shim shallowly: every operation is
a pure function from the shim state and an explicit environment (the external
collaborators: protobuf marshal/unmarshal, peer-ID parsing, the peer registry,
channel close) to the updated state together with a trace of observable
events (log calls, validator hook invocations, envelope deliveries and drops,
peer-update deliveries and drops, byte sends, panics).  Go's non-blocking
`select { case ch <- v: ... default: ... }` is modelled by a boolean `ready`
argument saying whether a receiver is ready at the single delivery attempt.
The Go `map[ChannelID]*ChannelShim` is modelled as an association list with
Go-map insertion semantics (inserting an existing key overwrites its value).
-/

namespace P2PShim

/-- Structured peer identity (`PeerID` in the new p2p package); derived from a
legacy peer's string ID by `PeerIDFromString`. -/
abbrev PeerID := String

/-- Status carried by a `PeerUpdate` (`PeerStatusUp` / `PeerStatusDown`). -/
inductive PeerStatus where
  | up
  | down
deriving DecidableEq, Repr

/-- A peer connectivity update sent on `PeerUpdateCh`. -/
structure PeerUpdate where
  peerID : PeerID
  status : PeerStatus
deriving DecidableEq, Repr

/-- Legacy peer handle; the shim only uses its string `ID()` (and its
byte-send primitive, which the environment models). -/
structure Peer where
  id : String
deriving DecidableEq, Repr

/-- An envelope on the new p2p interface: `From` identifies the sender of an
inbound message, `To` the destination of an outbound one. -/
structure Envelope (Msg : Type) where
  From : PeerID := ""
  To : PeerID := ""
  Message : Msg
deriving DecidableEq, Repr

/-- Legacy channel descriptor.  Its internals are opaque to the shim except
for the numeric channel `ID`; `Priority` stands in for the remaining opaque
metadata so that two distinct descriptors may share an `ID`. -/
structure ChannelDescriptor where
  ID : Nat
  Priority : Nat := 0
deriving DecidableEq, Repr

/-- The new-style channel handle built by `NewChannel`: it records the channel
ID and the prototype message (`messageType`) used to decode inbound bytes. -/
structure Channel (Msg : Type) where
  ID : Nat
  messageType : Msg
deriving DecidableEq, Repr

/-- `ChannelShim` pairs a legacy descriptor with the new-style channel handle
(the raw Go channel endpoints carry no persistent state; deliveries on them
appear in the event trace). -/
structure ChannelShim (Msg : Type) where
  Descriptor : ChannelDescriptor
  Channel : Channel Msg
deriving DecidableEq, Repr

/-- Input to `NewShim`: a prototype message together with a descriptor. -/
structure ChannelDescriptorShim (Msg : Type) where
  MsgType : Msg
  Descriptor : ChannelDescriptor
deriving DecidableEq, Repr

/-- The acceptance half of `MessageValidator`: `Validate` returns `none` to
accept a decoded message and `some err` to reject it.  The decode-failure hook
`OnUnmarshalFailure` has no observable return value; its invocation is
recorded in the event trace. -/
structure MessageValidator (Msg : Type) where
  Validate : Nat → Peer → List Nat → Msg → Option String

/-- External collaborators of the shim, passed explicitly: protobuf
marshal/unmarshal, `PeerIDFromString`, the switch's peer registry lookup, the
peer byte-send primitive's boolean result, and `Channel.Close`. -/
structure Env (Msg : Type) where
  unmarshal : Msg → List Nat → Except String Msg
  marshal : Msg → Except String (List Nat)
  peerIDFromString : String → Except String PeerID
  peersGet : String → Option Peer
  sendOk : Peer → Nat → List Nat → Bool
  closeChannel : Nat → Except String Unit

/-- State of a `ReactorShim`: its name, the running flag inherited from
`BaseReactor`, the `ChannelID → ChannelShim` map (association list with Go-map
insert semantics), the optional validator, and whether `PeerUpdateCh` is still
open. -/
structure ReactorShim (Msg : Type) where
  Name : String
  running : Bool
  Channels : List (Nat × ChannelShim Msg)
  msgValidator : Option (MessageValidator Msg)
  peerUpdateChOpen : Bool

/-- Observable events produced by shim operations. -/
inductive Event (Msg : Type) where
  | logError (tag : String)
  | logDebug (tag : String)
  | onUnmarshalFailure (chID : Nat) (src : Peer) (msgBytes : List Nat) (err : String)
  | validateCall (chID : Nat) (src : Peer) (msgBytes : List Nat)
  | envelopeDelivered (chID : Nat) (e : Envelope Msg)
  | envelopeDropped (chID : Nat)
  | peerUpdateSent (u : PeerUpdate)
  | peerUpdateDropped (u : PeerUpdate)
  | panicked (reason : String)
  | sendCall (peer : Peer) (chID : Nat) (bz : List Nat)
  | channelCloseCall (chID : Nat)
  | peerUpdateChClosed
  | proxyStarted (chID : Nat)
deriving DecidableEq, Repr

/-- Go-map insertion on the association list: overwrite the value if the key
is present, append a fresh binding otherwise. -/
def mapInsert {Msg : Type} (m : List (Nat × ChannelShim Msg)) (k : Nat)
    (v : ChannelShim Msg) : List (Nat × ChannelShim Msg) :=
  match m with
  | [] => [(k, v)]
  | (k', v') :: rest =>
    if k' = k then (k, v) :: rest else (k', v') :: mapInsert rest k v

/-- Go-map lookup (`rs.Channels[cID]`). -/
def lookupChannel {Msg : Type} (m : List (Nat × ChannelShim Msg)) (k : Nat) :
    Option (ChannelShim Msg) :=
  match m with
  | [] => none
  | (k', v) :: rest => if k' = k then some v else lookupChannel rest k

/-- Body of `NewShim`'s per-descriptor loop: build the `ChannelShim`, wrapping
the descriptor's ID and prototype message in a new-style channel handle. -/
def mkChannelShim {Msg : Type} (cds : ChannelDescriptorShim Msg) : ChannelShim Msg :=
  { Descriptor := cds.Descriptor
    Channel := { ID := cds.Descriptor.ID, messageType := cds.MsgType } }

/-- `NewShim`: fold the descriptor list into the channel map (Go map writes,
so a repeated ID overwrites the earlier binding) and assemble the shim.  The
freshly allocated `PeerUpdateCh` is open; `BaseReactor` starts out not
running. -/
def NewShim {Msg : Type} (name : String) (descriptors : List (ChannelDescriptorShim Msg))
    (msgVal : Option (MessageValidator Msg)) : ReactorShim Msg :=
  { Name := name
    running := false
    Channels := descriptors.foldl
      (fun m cds => mapInsert m cds.Descriptor.ID (mkChannelShim cds)) []
    msgValidator := msgVal
    peerUpdateChOpen := true }

/-- `GetChannels`: project the channel map onto its descriptors (map iteration
order is unspecified in Go; the list order here is one admissible order). -/
def GetChannels {Msg : Type} (rs : ReactorShim Msg) : List ChannelDescriptor :=
  rs.Channels.map (fun c => c.2.Descriptor)

/-- One iteration of the per-channel goroutine body in `proxyPeerEnvelopes`,
handling a single envelope taken from the channel's outbound endpoint: resolve
the destination peer (panic when absent), marshal (panic on failure), then
call the peer's byte-send primitive and discard its boolean result. -/
def proxyEnvelope {Msg : Type} (env : Env Msg) (chID : Nat) (e : Envelope Msg) :
    List (Event Msg) :=
  match env.peersGet e.To with
  | none =>
    [Event.panicked ("failed to proxy envelope; failed to find peer (" ++ e.To ++ ")")]
  | some src =>
    match env.marshal e.Message with
    | Except.error err =>
      [Event.panicked ("failed to proxy envelope; failed to encode message: " ++ err)]
    | Except.ok bz =>
      let _ := env.sendOk src chID bz
      [Event.sendCall src chID bz]

/-- `proxyPeerEnvelopes` spawns one proxy goroutine per channel; the spawning
itself is the observable effect recorded here. -/
def proxyPeerEnvelopes {Msg : Type} (rs : ReactorShim Msg) : List (Event Msg) :=
  rs.Channels.map (fun c => Event.proxyStarted c.2.Descriptor.ID)

/-- `OnStart`: start the proxy goroutines when already running; always returns
a nil error. -/
def OnStart {Msg : Type} (rs : ReactorShim Msg) : ReactorShim Msg × List (Event Msg) :=
  if rs.running then (rs, proxyPeerEnvelopes rs) else (rs, [])

/-- The `for _, cs := range rs.Channels` loop of `OnStop`: attempt to close
every channel handle; a failure is logged and the loop continues. -/
def closeChannels {Msg : Type} (env : Env Msg) :
    List (Nat × ChannelShim Msg) → List (Event Msg)
  | [] => []
  | (_, cs) :: rest =>
    (Event.channelCloseCall cs.Channel.ID ::
      match env.closeChannel cs.Channel.ID with
      | Except.ok _ => []
      | Except.error err => [Event.logError ("failed to close channel: " ++ err)]) ++
    closeChannels env rest

/-- `OnStop`: close every channel handle (best effort), then close
`PeerUpdateCh`. -/
def OnStop {Msg : Type} (env : Env Msg) (rs : ReactorShim Msg) :
    ReactorShim Msg × List (Event Msg) :=
  ({ rs with peerUpdateChOpen := false },
    closeChannels env rs.Channels ++ [Event.peerUpdateChClosed])

/-- `AddPeer`: derive the structured identity (panic on failure), then make a
single non-blocking attempt to deliver `PeerUpdate{peerID, Up}`. -/
def AddPeer {Msg : Type} (env : Env Msg) (rs : ReactorShim Msg) (peer : Peer)
    (ready : Bool) : ReactorShim Msg × List (Event Msg) :=
  match env.peerIDFromString peer.id with
  | Except.error e => (rs, [Event.panicked e])
  | Except.ok peerID =>
    if ready then
      (rs, [Event.peerUpdateSent { peerID := peerID, status := PeerStatus.up },
            Event.logDebug "sent peer update"])
    else
      (rs, [Event.peerUpdateDropped { peerID := peerID, status := PeerStatus.up },
            Event.logDebug "dropped peer update"])

/-- `RemovePeer`: as `AddPeer` but with status Down; the disconnect reason is
accepted and unused. -/
def RemovePeer {Msg : Type} (env : Env Msg) (rs : ReactorShim Msg) (peer : Peer)
    (_reason : String) (ready : Bool) : ReactorShim Msg × List (Event Msg) :=
  match env.peerIDFromString peer.id with
  | Except.error e => (rs, [Event.panicked e])
  | Except.ok peerID =>
    if ready then
      (rs, [Event.peerUpdateSent { peerID := peerID, status := PeerStatus.down },
            Event.logDebug "sent peer update"])
    else
      (rs, [Event.peerUpdateDropped { peerID := peerID, status := PeerStatus.down },
            Event.logDebug "dropped peer update"])

/-- Tail of `Receive` (lines 212–225 of `shim.go`): derive the structured peer
identity (panic on failure) and make a single non-blocking attempt to deliver
the envelope on the channel's inbound endpoint. -/
def deliverEnvelope {Msg : Type} (env : Env Msg) (rs : ReactorShim Msg) (chID : Nat)
    (src : Peer) (msg : Msg) (ready : Bool) (pre : List (Event Msg)) :
    ReactorShim Msg × List (Event Msg) :=
  match env.peerIDFromString src.id with
  | Except.error e => (rs, pre ++ [Event.panicked e])
  | Except.ok peerID =>
    if ready then
      (rs, pre ++ [Event.envelopeDelivered chID { From := peerID, Message := msg },
                   Event.logDebug "proxied envelope"])
    else
      (rs, pre ++ [Event.envelopeDropped chID, Event.logDebug "dropped envelope"])

/-- `Receive`: drop when not running; resolve the channel (log and return when
unknown); decode against the channel's prototype message (on failure log,
invoke the validator's decode-failure hook when configured, and return); run
the validator's acceptance check when configured (on rejection log and
return); then deliver the envelope non-blockingly. -/
def Receive {Msg : Type} (env : Env Msg) (rs : ReactorShim Msg) (chID : Nat)
    (src : Peer) (msgBytes : List Nat) (ready : Bool) :
    ReactorShim Msg × List (Event Msg) :=
  if rs.running = false then (rs, [])
  else
    match lookupChannel rs.Channels chID with
    | none => (rs, [Event.logError "unexpected channel"])
    | some channelShim =>
      match env.unmarshal channelShim.Channel.messageType msgBytes with
      | Except.error err =>
        (rs, Event.logError "error decoding message" ::
          (match rs.msgValidator with
           | some _ => [Event.onUnmarshalFailure chID src msgBytes err]
           | none => []))
      | Except.ok msg =>
        match rs.msgValidator with
        | some mv =>
          match mv.Validate chID src msgBytes msg with
          | some _ =>
            (rs, [Event.validateCall chID src msgBytes, Event.logError "invalid message"])
          | none =>
            deliverEnvelope env rs chID src msg ready [Event.validateCall chID src msgBytes]
        | none => deliverEnvelope env rs chID src msg ready []

/-- Envelopes delivered on inbound endpoints, with their channel IDs. -/
def deliveredEnvelopes {Msg : Type} (tr : List (Event Msg)) : List (Nat × Envelope Msg) :=
  tr.filterMap fun ev =>
    match ev with
    | Event.envelopeDelivered ch e => some (ch, e)
    | _ => none

/-- Invocations of the validator's decode-failure hook, with their arguments. -/
def unmarshalFailureCalls {Msg : Type} (tr : List (Event Msg)) :
    List (Nat × Peer × List Nat × String) :=
  tr.filterMap fun ev =>
    match ev with
    | Event.onUnmarshalFailure ch src bs err => some (ch, src, bs, err)
    | _ => none

/-- Invocations of the validator's acceptance check. -/
def validateCalls {Msg : Type} (tr : List (Event Msg)) : List (Nat × Peer × List Nat) :=
  tr.filterMap fun ev =>
    match ev with
    | Event.validateCall ch src bs => some (ch, src, bs)
    | _ => none

/-- Panic events in a trace. -/
def panicEvents {Msg : Type} (tr : List (Event Msg)) : List String :=
  tr.filterMap fun ev =>
    match ev with
    | Event.panicked reason => some reason
    | _ => none

/-- Peer updates actually delivered on `PeerUpdateCh`, in order. -/
def sentPeerUpdates {Msg : Type} (tr : List (Event Msg)) : List PeerUpdate :=
  tr.filterMap fun ev =>
    match ev with
    | Event.peerUpdateSent u => some u
    | _ => none

/-- Peer updates dropped because no receiver was ready. -/
def droppedPeerUpdates {Msg : Type} (tr : List (Event Msg)) : List PeerUpdate :=
  tr.filterMap fun ev =>
    match ev with
    | Event.peerUpdateDropped u => some u
    | _ => none

/-- Calls to a peer's byte-send primitive, with peer, channel ID and payload. -/
def sendCalls {Msg : Type} (tr : List (Event Msg)) : List (Peer × Nat × List Nat) :=
  tr.filterMap fun ev =>
    match ev with
    | Event.sendCall p ch bz => some (p, ch, bz)
    | _ => none

/-- Channel IDs whose new-style handle close was attempted, in order. -/
def closeCalls {Msg : Type} (tr : List (Event Msg)) : List Nat :=
  tr.filterMap fun ev =>
    match ev with
    | Event.channelCloseCall ch => some ch
    | _ => none

/-- Number of times `PeerUpdateCh` is closed in a trace. -/
def peerUpdateChClosedCount {Msg : Type} (tr : List (Event Msg)) : Nat :=
  tr.countP fun ev =>
    match ev with
    | Event.peerUpdateChClosed => true
    | _ => false

/-! ## Concrete fixtures used by the witness theorems -/

/-- A concrete environment over `Msg := Nat`: a message is decoded as the
first byte of the payload, encoded as a singleton payload. -/
def testEnv : Env Nat :=
  { unmarshal := fun _ bs =>
      match bs with
      | [] => Except.error "empty payload"
      | b :: _ => Except.ok b
    marshal := fun n => Except.ok [n]
    peerIDFromString := fun s =>
      if s = "" then Except.error "empty peer id" else Except.ok s
    peersGet := fun s => if s = "peerA" then some { id := "peerA" } else none
    sendOk := fun _ _ _ => true
    closeChannel := fun k => if k = 9 then Except.error "close failed" else Except.ok ()
  }

/-- A concrete descriptor for channel 1. -/
def testDescriptor : ChannelDescriptor := { ID := 1, Priority := 5 }

/-- The channel shim built from `testDescriptor`. -/
def testChannelShim : ChannelShim Nat :=
  { Descriptor := testDescriptor, Channel := { ID := 1, messageType := 0 } }

/-- A running shim with channel 1 configured and no validator. -/
def testShim : ReactorShim Nat :=
  { Name := "test"
    running := true
    Channels := [(1, testChannelShim)]
    msgValidator := none
    peerUpdateChOpen := true }

/-- A validator accepting exactly the message `7`. -/
def testValidator : MessageValidator Nat :=
  { Validate := fun _ _ _ m => if m = 7 then none else some "rejected" }

/-- The running shim with the validator configured. -/
def testShimV : ReactorShim Nat := { testShim with msgValidator := some testValidator }

/-! ## Claims about `Receive` -/

/-- C1: for a call to `Receive` with a configured channel ID, bytes that
decode successfully, and a validator (when configured) that accepts the
message, exactly one envelope is delivered on that channel's inbound endpoint,
with `Message` the decoded message and `From` the identity derived from the
source peer's string ID, provided a receiver is ready at the single
non-blocking attempt; with no receiver ready, zero envelopes are delivered. -/
theorem receive_accepted_delivers_exactly_one {Msg : Type} (env : Env Msg)
    (rs : ReactorShim Msg) (chID : Nat) (src : Peer) (msgBytes : List Nat)
    (cs : ChannelShim Msg) (msg : Msg) (pid : PeerID)
    (hrun : rs.running = true)
    (hch : lookupChannel rs.Channels chID = some cs)
    (hdec : env.unmarshal cs.Channel.messageType msgBytes = Except.ok msg)
    (hval : ∀ mv, rs.msgValidator = some mv → mv.Validate chID src msgBytes msg = none)
    (hpid : env.peerIDFromString src.id = Except.ok pid) :
    deliveredEnvelopes (Receive env rs chID src msgBytes true).2
        = [(chID, { From := pid, Message := msg })] ∧
    deliveredEnvelopes (Receive env rs chID src msgBytes false).2 = [] := by
  unfold Receive
  simp only [hrun, hch, hdec]
  cases hv : rs.msgValidator with
  | none =>
    simp [deliverEnvelope, hpid, deliveredEnvelopes]
  | some mv =>
    simp only [hval mv hv]
    simp [deliverEnvelope, hpid, deliveredEnvelopes]

/-- Witness for C1 at a concrete input: channel 1, payload `[7]`, peer
`peerA`, no validator configured. -/
theorem receive_accepted_delivers_exactly_one_witness :
    deliveredEnvelopes (Receive testEnv testShim 1 { id := "peerA" } [7] true).2
        = [(1, { From := "peerA", Message := 7 })] ∧
    deliveredEnvelopes (Receive testEnv testShim 1 { id := "peerA" } [7] false).2 = [] :=
  receive_accepted_delivers_exactly_one testEnv testShim 1 { id := "peerA" } [7]
    testChannelShim 7 "peerA" rfl (by decide) rfl
    (by intro mv h; simp [testShim] at h) (by simp [testEnv])

/-- C3: for a call to `Receive` with a configured channel ID and bytes that
fail to decode, with a validator configured, the decode-failure hook is
invoked exactly once with the channel ID, source peer, original bytes and
decode error; no envelope is delivered; and the process is not aborted. -/
theorem receive_decode_failure_invokes_hook {Msg : Type} (env : Env Msg)
    (rs : ReactorShim Msg) (chID : Nat) (src : Peer) (msgBytes : List Nat)
    (cs : ChannelShim Msg) (err : String) (mv : MessageValidator Msg) (ready : Bool)
    (hrun : rs.running = true)
    (hch : lookupChannel rs.Channels chID = some cs)
    (hdec : env.unmarshal cs.Channel.messageType msgBytes = Except.error err)
    (hmv : rs.msgValidator = some mv) :
    unmarshalFailureCalls (Receive env rs chID src msgBytes ready).2
        = [(chID, src, msgBytes, err)] ∧
    deliveredEnvelopes (Receive env rs chID src msgBytes ready).2 = [] ∧
    panicEvents (Receive env rs chID src msgBytes ready).2 = [] := by
  unfold Receive
  simp only [hrun, hch, hdec, hmv]
  simp [unmarshalFailureCalls, deliveredEnvelopes, panicEvents]

/-- Witness for C3 at a concrete input: channel 1, empty payload (decode
fails), validator configured. -/
theorem receive_decode_failure_invokes_hook_witness :
    unmarshalFailureCalls (Receive testEnv testShimV 1 { id := "peerA" } [] true).2
        = [(1, { id := "peerA" }, [], "empty payload")] ∧
    deliveredEnvelopes (Receive testEnv testShimV 1 { id := "peerA" } [] true).2 = [] ∧
    panicEvents (Receive testEnv testShimV 1 { id := "peerA" } [] true).2 = [] :=
  receive_decode_failure_invokes_hook testEnv testShimV 1 { id := "peerA" } []
    testChannelShim "empty payload" testValidator true rfl (by decide) rfl rfl

/-- C7: for a call to `Receive` with a channel ID not in the channel map, an
error is logged and the call returns: no envelope is delivered, neither
validator hook is invoked, and the process is not aborted. -/
theorem receive_unknown_channel_drops {Msg : Type} (env : Env Msg)
    (rs : ReactorShim Msg) (chID : Nat) (src : Peer) (msgBytes : List Nat) (ready : Bool)
    (hrun : rs.running = true)
    (hch : lookupChannel rs.Channels chID = none) :
    (Receive env rs chID src msgBytes ready).2 = [Event.logError "unexpected channel"] ∧
    deliveredEnvelopes (Receive env rs chID src msgBytes ready).2 = [] ∧
    unmarshalFailureCalls (Receive env rs chID src msgBytes ready).2 = [] ∧
    validateCalls (Receive env rs chID src msgBytes ready).2 = [] ∧
    panicEvents (Receive env rs chID src msgBytes ready).2 = [] := by
  unfold Receive
  simp only [hrun, hch]
  simp [deliveredEnvelopes, unmarshalFailureCalls, validateCalls, panicEvents]

/-- Witness for C7 at a concrete input: channel 2 is not configured. -/
theorem receive_unknown_channel_drops_witness :
    (Receive testEnv testShimV 2 { id := "peerA" } [7] true).2
        = [Event.logError "unexpected channel"] ∧
    deliveredEnvelopes (Receive testEnv testShimV 2 { id := "peerA" } [7] true).2 = [] ∧
    unmarshalFailureCalls (Receive testEnv testShimV 2 { id := "peerA" } [7] true).2 = [] ∧
    validateCalls (Receive testEnv testShimV 2 { id := "peerA" } [7] true).2 = [] ∧
    panicEvents (Receive testEnv testShimV 2 { id := "peerA" } [7] true).2 = [] :=
  receive_unknown_channel_drops testEnv testShimV 2 { id := "peerA" } [7] true rfl (by decide)

/-- C8: for a call to `Receive` with a configured channel ID and bytes that
decode successfully but are rejected by the configured validator, the message
is dropped: no envelope is delivered, the decode-failure hook is not invoked,
and the process is not aborted. -/
theorem receive_rejected_drops {Msg : Type} (env : Env Msg)
    (rs : ReactorShim Msg) (chID : Nat) (src : Peer) (msgBytes : List Nat)
    (cs : ChannelShim Msg) (msg : Msg) (mv : MessageValidator Msg) (err : String)
    (ready : Bool)
    (hrun : rs.running = true)
    (hch : lookupChannel rs.Channels chID = some cs)
    (hdec : env.unmarshal cs.Channel.messageType msgBytes = Except.ok msg)
    (hmv : rs.msgValidator = some mv)
    (hrej : mv.Validate chID src msgBytes msg = some err) :
    deliveredEnvelopes (Receive env rs chID src msgBytes ready).2 = [] ∧
    unmarshalFailureCalls (Receive env rs chID src msgBytes ready).2 = [] ∧
    panicEvents (Receive env rs chID src msgBytes ready).2 = [] := by
  unfold Receive
  simp only [hrun, hch, hdec, hmv, hrej]
  simp [deliveredEnvelopes, unmarshalFailureCalls, panicEvents]

/-- Witness for C8 at a concrete input: payload `[3]` decodes to `3`, which
`testValidator` rejects. -/
theorem receive_rejected_drops_witness :
    deliveredEnvelopes (Receive testEnv testShimV 1 { id := "peerA" } [3] true).2 = [] ∧
    unmarshalFailureCalls (Receive testEnv testShimV 1 { id := "peerA" } [3] true).2 = [] ∧
    panicEvents (Receive testEnv testShimV 1 { id := "peerA" } [3] true).2 = [] :=
  receive_rejected_drops testEnv testShimV 1 { id := "peerA" } [3]
    testChannelShim 3 testValidator "rejected" true rfl (by decide) rfl rfl (by decide)

/-! ## Claims about the outbound proxy, peer updates, and shutdown -/

/-- C2: for every envelope consumed by a channel's outbound proxy task, if the
destination does not resolve to a connected peer, or encoding fails, the task
aborts via panic; otherwise exactly one call to the resolved peer's byte-send
primitive is made with the encoded payload and the channel's legacy numeric
ID, and the boolean result of the send is discarded (the trace is independent
of it). -/
theorem proxyEnvelope_panics_or_sends_once {Msg : Type} (env : Env Msg)
    (chID : Nat) (e : Envelope Msg) :
    (env.peersGet e.To = none →
      ∃ s, proxyEnvelope env chID e = [Event.panicked s]) ∧
    (∀ p, env.peersGet e.To = some p →
      ∀ err, env.marshal e.Message = Except.error err →
        ∃ s, proxyEnvelope env chID e = [Event.panicked s]) ∧
    (∀ p bz, env.peersGet e.To = some p → env.marshal e.Message = Except.ok bz →
      sendCalls (proxyEnvelope env chID e) = [(p, chID, bz)] ∧
      panicEvents (proxyEnvelope env chID e) = [] ∧
      ∀ g, proxyEnvelope { env with sendOk := g } chID e = proxyEnvelope env chID e) := by
  refine ⟨fun hnone => ?_, fun p hp err herr => ?_, fun p bz hp hbz => ?_⟩
  · refine ⟨"failed to proxy envelope; failed to find peer (" ++ e.To ++ ")", ?_⟩
    unfold proxyEnvelope
    simp only [hnone]
  · refine ⟨"failed to proxy envelope; failed to encode message: " ++ err, ?_⟩
    unfold proxyEnvelope
    simp only [hp, herr]
  · refine ⟨?_, ?_, fun g => ?_⟩
    · unfold proxyEnvelope
      simp only [hp, hbz]
      simp [sendCalls]
    · unfold proxyEnvelope
      simp only [hp, hbz]
      simp [panicEvents]
    · unfold proxyEnvelope
      simp only [hp, hbz]

/-- Witness for C2 at a concrete input: destination `peerA` is connected and
the message `5` encodes to `[5]`. -/
theorem proxyEnvelope_panics_or_sends_once_witness :
    sendCalls (proxyEnvelope testEnv 3 { To := "peerA", Message := 5 })
        = [({ id := "peerA" }, 3, [5])] ∧
    panicEvents (proxyEnvelope testEnv 3 { To := "peerA", Message := 5 }) = [] := by
  have h := (proxyEnvelope_panics_or_sends_once testEnv 3
    { To := "peerA", Message := 5 }).2.2 { id := "peerA" } [5] (by simp [testEnv]) rfl
  exact ⟨h.1, h.2.1⟩

/-- The trace of `AddPeer` immediately followed by `RemovePeer` for the same
peer, with receiver readiness `r1` at the first attempt and `r2` at the
second. -/
def addThenRemove {Msg : Type} (env : Env Msg) (rs : ReactorShim Msg) (peer : Peer)
    (reason : String) (r1 r2 : Bool) : List (Event Msg) :=
  (AddPeer env rs peer r1).2 ++ (RemovePeer env (AddPeer env rs peer r1).1 peer reason r2).2

/-- C5: for a peer whose string identity parses, `AddPeer` followed by
`RemovePeer` for that peer delivers, when a receiver is ready at both
attempts, exactly two peer updates in order — Up then Down — both carrying the
derived identity; an attempt with no ready receiver drops that update instead
of blocking. -/
theorem addPeer_removePeer_updates {Msg : Type} (env : Env Msg)
    (rs : ReactorShim Msg) (peer : Peer) (reason : String) (pid : PeerID)
    (r1 r2 : Bool)
    (hpid : env.peerIDFromString peer.id = Except.ok pid) :
    sentPeerUpdates (addThenRemove env rs peer reason r1 r2)
        = (if r1 then [{ peerID := pid, status := PeerStatus.up }] else []) ++
          (if r2 then [{ peerID := pid, status := PeerStatus.down }] else []) ∧
    droppedPeerUpdates (addThenRemove env rs peer reason r1 r2)
        = (if r1 then [] else [{ peerID := pid, status := PeerStatus.up }]) ++
          (if r2 then [] else [{ peerID := pid, status := PeerStatus.down }]) := by
  unfold addThenRemove AddPeer RemovePeer
  simp only [hpid]
  cases r1 <;> cases r2 <;> simp [sentPeerUpdates, droppedPeerUpdates]

/-- Witness for C5 at a concrete input: peer `peerA`, receivers ready at both
attempts. -/
theorem addPeer_removePeer_updates_witness :
    sentPeerUpdates (addThenRemove testEnv testShim { id := "peerA" } "bye" true true)
        = [{ peerID := "peerA", status := PeerStatus.up },
           { peerID := "peerA", status := PeerStatus.down }] ∧
    droppedPeerUpdates (addThenRemove testEnv testShim { id := "peerA" } "bye" true true)
        = [] := by
  have h := addPeer_removePeer_updates testEnv testShim { id := "peerA" } "bye" "peerA"
    true true (by simp [testEnv])
  simpa using h

/-- C6: `OnStop` attempts to close the new-style handle of every `ChannelShim`
(one close attempt per channel, whatever the close results are), then closes
the shared peer-update channel exactly once, after all close attempts; it
always runs to completion, leaving the peer-update channel closed. -/
theorem onStop_closes_everything {Msg : Type} (env : Env Msg) (rs : ReactorShim Msg) :
    (OnStop env rs).2 = closeChannels env rs.Channels ++ [Event.peerUpdateChClosed] ∧
    closeCalls (closeChannels env rs.Channels)
        = rs.Channels.map (fun c => c.2.Channel.ID) ∧
    peerUpdateChClosedCount (closeChannels env rs.Channels) = 0 ∧
    peerUpdateChClosedCount (OnStop env rs).2 = 1 ∧
    (OnStop env rs).1.peerUpdateChOpen = false := by
  refine ⟨rfl, ?_, ?_, ?_, rfl⟩
  · induction rs.Channels with
    | nil => rfl
    | cons c rest ih =>
      obtain ⟨k, cs⟩ := c
      unfold closeChannels
      cases h : env.closeChannel cs.Channel.ID <;> simp [closeCalls] at ih ⊢ <;> exact ih
  · induction rs.Channels with
    | nil => rfl
    | cons c rest ih =>
      obtain ⟨k, cs⟩ := c
      unfold closeChannels
      cases h : env.closeChannel cs.Channel.ID <;>
        simp [peerUpdateChClosedCount] at ih ⊢ <;> exact ih
  · have hzero : peerUpdateChClosedCount (closeChannels env rs.Channels) = 0 := by
      induction rs.Channels with
      | nil => rfl
      | cons c rest ih =>
        obtain ⟨k, cs⟩ := c
        unfold closeChannels
        cases h : env.closeChannel cs.Channel.ID <;>
          simp [peerUpdateChClosedCount] at ih ⊢ <;> exact ih
    show peerUpdateChClosedCount (closeChannels env rs.Channels ++ [Event.peerUpdateChClosed]) = 1
    simp [peerUpdateChClosedCount, List.countP_append] at hzero ⊢
    simpa [peerUpdateChClosedCount] using hzero

/-! ## Association-list lemmas for the channel map -/

/-- Keys of the channel map. -/
def keysOf {Msg : Type} (m : List (Nat × ChannelShim Msg)) : List Nat :=
  m.map (fun p => p.1)

@[simp] theorem keysOf_nil {Msg : Type} : keysOf ([] : List (Nat × ChannelShim Msg)) = [] := rfl

@[simp] theorem keysOf_cons {Msg : Type} (p : Nat × ChannelShim Msg)
    (m : List (Nat × ChannelShim Msg)) : keysOf (p :: m) = p.1 :: keysOf m := rfl

@[simp] theorem keysOf_append {Msg : Type} (m m' : List (Nat × ChannelShim Msg)) :
    keysOf (m ++ m') = keysOf m ++ keysOf m' := by
  simp [keysOf]

@[simp] theorem length_keysOf {Msg : Type} (m : List (Nat × ChannelShim Msg)) :
    (keysOf m).length = m.length := by
  simp [keysOf]

theorem keysOf_mapInsert {Msg : Type} (m : List (Nat × ChannelShim Msg)) (k : Nat)
    (v : ChannelShim Msg) :
    keysOf (mapInsert m k v) = if k ∈ keysOf m then keysOf m else keysOf m ++ [k] := by
  induction m with
  | nil => simp [mapInsert]
  | cons p rest ih =>
    obtain ⟨k', v'⟩ := p
    by_cases h : k' = k
    · subst h
      simp [mapInsert]
    · have h' : ¬ k = k' := fun hh => h hh.symm
      simp only [mapInsert, if_neg h, keysOf_cons, List.mem_cons, h', false_or, ih]
      by_cases hk : k ∈ keysOf rest <;> simp [hk]

theorem mapInsert_of_not_mem {Msg : Type} (m : List (Nat × ChannelShim Msg)) (k : Nat)
    (v : ChannelShim Msg) (h : k ∉ keysOf m) :
    mapInsert m k v = m ++ [(k, v)] := by
  induction m with
  | nil => rfl
  | cons p rest ih =>
    obtain ⟨k', v'⟩ := p
    simp only [keysOf_cons, List.mem_cons] at h
    push_neg at h
    simp only [mapInsert, if_neg (fun hh : k' = k => h.1 hh.symm), ih h.2, List.cons_append]

theorem lookupChannel_mapInsert {Msg : Type} (m : List (Nat × ChannelShim Msg))
    (k k' : Nat) (v : ChannelShim Msg) :
    lookupChannel (mapInsert m k v) k' = if k = k' then some v else lookupChannel m k' := by
  induction m with
  | nil => simp [mapInsert, lookupChannel]
  | cons p rest ih =>
    obtain ⟨a, b⟩ := p
    by_cases hak : a = k
    · subst hak
      by_cases hk : a = k'
      · subst hk
        simp [mapInsert, lookupChannel]
      · simp [mapInsert, lookupChannel, hk, fun hh : a = k' => hk hh]
    · by_cases hak' : a = k'
      · subst hak'
        have hka : ¬ k = a := fun hh => hak hh.symm
        simp [mapInsert, lookupChannel, hak, hka]
      · simp [mapInsert, lookupChannel, hak, hak', ih]

/-- Looking a key up after `NewShim`'s insertion fold finds the channel shim
built from the last descriptor carrying that key (the first one in the
reversed list), falling back to the initial map. -/
theorem lookupChannel_foldl_insert {Msg : Type}
    (descriptors : List (ChannelDescriptorShim Msg))
    (acc : List (Nat × ChannelShim Msg)) (k : Nat) :
    lookupChannel
      (descriptors.foldl (fun m cds => mapInsert m cds.Descriptor.ID (mkChannelShim cds)) acc) k
      = match descriptors.reverse.find? (fun cds => cds.Descriptor.ID == k) with
        | some cds => some (mkChannelShim cds)
        | none => lookupChannel acc k := by
  induction descriptors generalizing acc with
  | nil => simp
  | cons c rest ih =>
    simp only [List.foldl_cons, List.reverse_cons, List.find?_append]
    rw [ih]
    cases hfind : rest.reverse.find? (fun cds => cds.Descriptor.ID == k) with
    | some cds => simp [Option.or]
    | none =>
      simp only [Option.none_or]
      rw [lookupChannel_mapInsert]
      by_cases hc : c.Descriptor.ID = k
      · simp [List.find?, hc]
      · have hbeq : (c.Descriptor.ID == k) = false := beq_eq_false_iff_ne.mpr hc
        simp [List.find?, hbeq, hc]

/-- With pairwise-distinct descriptor IDs (and none colliding with the
initial map), the insertion fold appends one binding per descriptor, in
order. -/
theorem foldl_insert_of_nodup {Msg : Type}
    (descriptors : List (ChannelDescriptorShim Msg))
    (acc : List (Nat × ChannelShim Msg))
    (hnd : (descriptors.map (fun cds => cds.Descriptor.ID)).Nodup)
    (hdisj : ∀ cds ∈ descriptors, cds.Descriptor.ID ∉ keysOf acc) :
    descriptors.foldl (fun m cds => mapInsert m cds.Descriptor.ID (mkChannelShim cds)) acc
      = acc ++ descriptors.map (fun cds => (cds.Descriptor.ID, mkChannelShim cds)) := by
  induction descriptors generalizing acc with
  | nil => simp
  | cons c rest ih =>
    simp only [List.map_cons, List.nodup_cons] at hnd
    simp only [List.foldl_cons]
    rw [mapInsert_of_not_mem _ _ _ (hdisj c (List.mem_cons_self _ _))]
    have hdisj' : ∀ cds ∈ rest,
        cds.Descriptor.ID ∉ keysOf (acc ++ [(c.Descriptor.ID, mkChannelShim c)]) := by
      intro cds hc
      simp only [keysOf_append, keysOf_cons, keysOf_nil, List.mem_append, List.mem_cons,
        List.not_mem_nil, or_false]
      push_neg
      exact ⟨hdisj cds (List.mem_cons_of_mem _ hc),
        fun heq => hnd.1 (heq ▸ List.mem_map_of_mem _ hc)⟩
    rw [ih (acc ++ [(c.Descriptor.ID, mkChannelShim c)]) hnd.2 hdisj']
    simp

/-- The set of keys after the insertion fold is the initial key set joined
with the descriptor IDs. -/
theorem keysOf_foldl_insert_toFinset {Msg : Type}
    (descriptors : List (ChannelDescriptorShim Msg))
    (acc : List (Nat × ChannelShim Msg)) :
    (keysOf (descriptors.foldl
        (fun m cds => mapInsert m cds.Descriptor.ID (mkChannelShim cds)) acc)).toFinset
      = (keysOf acc).toFinset ∪ (descriptors.map (fun cds => cds.Descriptor.ID)).toFinset := by
  induction descriptors generalizing acc with
  | nil => simp
  | cons c rest ih =>
    simp only [List.foldl_cons, List.map_cons, List.toFinset_cons]
    rw [ih]
    rw [keysOf_mapInsert]
    by_cases h : c.Descriptor.ID ∈ keysOf acc
    · simp only [if_pos h]
      ext x
      simp only [Finset.mem_union, List.mem_toFinset, Finset.mem_insert]
      constructor
      · rintro (hx | hx)
        · exact Or.inl hx
        · exact Or.inr (Or.inr hx)
      · rintro (hx | hx | hx)
        · exact Or.inl hx
        · exact Or.inl (hx ▸ h)
        · exact Or.inr hx
    · simp only [if_neg h, List.toFinset_append]
      ext x
      simp only [Finset.mem_union, List.mem_toFinset, Finset.mem_insert, List.toFinset_cons,
        List.toFinset_nil, Finset.mem_singleton, List.mem_singleton]
      tauto

/-- The insertion fold preserves distinctness of the keys. -/
theorem keysOf_foldl_insert_nodup {Msg : Type}
    (descriptors : List (ChannelDescriptorShim Msg))
    (acc : List (Nat × ChannelShim Msg)) (h : (keysOf acc).Nodup) :
    (keysOf (descriptors.foldl
        (fun m cds => mapInsert m cds.Descriptor.ID (mkChannelShim cds)) acc)).Nodup := by
  induction descriptors generalizing acc with
  | nil => exact h
  | cons c rest ih =>
    simp only [List.foldl_cons]
    apply ih
    rw [keysOf_mapInsert]
    by_cases hc : c.Descriptor.ID ∈ keysOf acc
    · simpa [hc] using h
    · simp only [if_neg hc, List.nodup_append]
      refine ⟨h, List.nodup_singleton _, ?_⟩
      intro a ha hb
      simp only [List.mem_singleton] at hb
      exact hc (hb ▸ ha)

/-! ## Claims about the channel map: enumeration, immutability, duplicates -/

/-- C4 counterexample: with two distinct descriptors sharing channel ID 1,
the set of descriptors returned by `GetChannels` differs from the configured
set, so the claim as stated fails. -/
theorem getChannels_set_counterexample :
    (GetChannels (NewShim "x"
        [{ MsgType := (0 : Nat), Descriptor := { ID := 1, Priority := 0 } },
         { MsgType := (0 : Nat), Descriptor := { ID := 1, Priority := 1 } }] none)).toFinset
      ≠ ([{ ID := 1, Priority := 0 }, { ID := 1, Priority := 1 }] :
          List ChannelDescriptor).toFinset := by
  decide

/-- C4 (amended): for descriptor lists whose channel IDs are pairwise
distinct, the collection of descriptors returned by `GetChannels` equals the
configured collection, compared as sets. -/
theorem getChannels_eq_of_distinct {Msg : Type} (name : String)
    (descriptors : List (ChannelDescriptorShim Msg))
    (msgVal : Option (MessageValidator Msg))
    (h : (descriptors.map (fun cds => cds.Descriptor.ID)).Nodup) :
    (GetChannels (NewShim name descriptors msgVal)).toFinset
      = (descriptors.map (fun cds => cds.Descriptor)).toFinset := by
  unfold GetChannels NewShim
  rw [foldl_insert_of_nodup descriptors [] h (by intro cds _; simp)]
  simp only [List.nil_append, List.map_map]
  rfl

/-- Witness for the amended C4 at a concrete input: two descriptors with
distinct IDs 1 and 2. -/
theorem getChannels_eq_of_distinct_witness :
    (GetChannels (NewShim "x"
        [{ MsgType := (0 : Nat), Descriptor := { ID := 1, Priority := 0 } },
         { MsgType := (0 : Nat), Descriptor := { ID := 2, Priority := 1 } }] none)).toFinset
      = (([{ MsgType := (0 : Nat), Descriptor := { ID := 1, Priority := 0 } },
           { MsgType := (0 : Nat), Descriptor := { ID := 2, Priority := 1 } }] :
            List (ChannelDescriptorShim Nat)).map
            (fun cds => cds.Descriptor)).toFinset :=
  getChannels_eq_of_distinct "x"
    [{ MsgType := (0 : Nat), Descriptor := { ID := 1, Priority := 0 } },
     { MsgType := (0 : Nat), Descriptor := { ID := 2, Priority := 1 } }] none (by decide)

/-- C9: the channel map is fully populated during construction (every
configured descriptor's ID is present) and no subsequent operation
(`Receive`, `AddPeer`, `RemovePeer`, `OnStart`, `OnStop`) changes it. -/
theorem channels_map_immutable {Msg : Type} (env : Env Msg) (rs : ReactorShim Msg)
    (chID : Nat) (src : Peer) (msgBytes : List Nat) (ready : Bool) (peer : Peer)
    (reason : String) (name : String) (descriptors : List (ChannelDescriptorShim Msg))
    (msgVal : Option (MessageValidator Msg)) :
    (Receive env rs chID src msgBytes ready).1.Channels = rs.Channels ∧
    (AddPeer env rs peer ready).1.Channels = rs.Channels ∧
    (RemovePeer env rs peer reason ready).1.Channels = rs.Channels ∧
    (OnStart rs).1.Channels = rs.Channels ∧
    (OnStop env rs).1.Channels = rs.Channels ∧
    ∀ cds, cds ∈ descriptors →
      (lookupChannel (NewShim name descriptors msgVal).Channels cds.Descriptor.ID).isSome
        = true := by
  refine ⟨?_, ?_, ?_, ?_, rfl, ?_⟩
  · unfold Receive deliverEnvelope
    repeat' split
    all_goals rfl
  · unfold AddPeer
    repeat' split
    all_goals rfl
  · unfold RemovePeer
    repeat' split
    all_goals rfl
  · unfold OnStart
    split
    all_goals rfl
  · intro cds hc
    show (lookupChannel
      (descriptors.foldl (fun m c => mapInsert m c.Descriptor.ID (mkChannelShim c)) []) _).isSome
        = true
    rw [lookupChannel_foldl_insert]
    have hfind : (descriptors.reverse.find?
        (fun c => c.Descriptor.ID == cds.Descriptor.ID)).isSome = true := by
      rw [List.find?_isSome]
      exact ⟨cds, List.mem_reverse.mpr hc, by simp⟩
    cases hf : descriptors.reverse.find? (fun c => c.Descriptor.ID == cds.Descriptor.ID) with
    | some c => simp
    | none => rw [hf] at hfind; simp at hfind

/-- Witness for C9 at a concrete input. -/
theorem channels_map_immutable_witness :
    (Receive testEnv testShim 1 { id := "peerA" } [7] true).1.Channels = testShim.Channels ∧
    (AddPeer testEnv testShim { id := "peerA" } true).1.Channels = testShim.Channels ∧
    (RemovePeer testEnv testShim { id := "peerA" } "bye" true).1.Channels
        = testShim.Channels ∧
    (OnStart testShim).1.Channels = testShim.Channels ∧
    (OnStop testEnv testShim).1.Channels = testShim.Channels ∧
    (lookupChannel (NewShim "x"
        [{ MsgType := (0 : Nat), Descriptor := testDescriptor }] none).Channels
      testDescriptor.ID).isSome = true := by
  have h := channels_map_immutable testEnv testShim 1 { id := "peerA" } [7] true
    { id := "peerA" } "bye" "x" [{ MsgType := (0 : Nat), Descriptor := testDescriptor }] none
  exact ⟨h.1, h.2.1, h.2.2.1, h.2.2.2.1, h.2.2.2.2.1,
    h.2.2.2.2.2 { MsgType := (0 : Nat), Descriptor := testDescriptor } (by decide)⟩

/-- C10: when the descriptor list contains two or more descriptors with the
same channel ID, the constructed map keeps one shim per distinct ID — the one
built from the last descriptor carrying that ID in list order — so
`GetChannels` has one descriptor per distinct ID, strictly fewer than the
configured descriptors. -/
theorem newShim_duplicate_collapse {Msg : Type} (name : String)
    (descriptors : List (ChannelDescriptorShim Msg))
    (msgVal : Option (MessageValidator Msg)) (k : Nat)
    (hdup : ¬ (descriptors.map (fun cds => cds.Descriptor.ID)).Nodup) :
    (GetChannels (NewShim name descriptors msgVal)).length
        = (descriptors.map (fun cds => cds.Descriptor.ID)).dedup.length ∧
    (GetChannels (NewShim name descriptors msgVal)).length < descriptors.length ∧
    lookupChannel (NewShim name descriptors msgVal).Channels k
        = (descriptors.reverse.find? (fun cds => cds.Descriptor.ID == k)).map
            mkChannelShim := by
  have hlen : (GetChannels (NewShim name descriptors msgVal)).length
      = (descriptors.map (fun cds => cds.Descriptor.ID)).dedup.length := by
    unfold GetChannels NewShim
    rw [List.length_map, ← length_keysOf]
    have hnd := keysOf_foldl_insert_nodup descriptors [] (by simp)
    have hfin := keysOf_foldl_insert_toFinset descriptors ([] : List (Nat × ChannelShim Msg))
    rw [← List.toFinset_card_of_nodup hnd, hfin]
    simp [List.card_toFinset]
  refine ⟨hlen, ?_, ?_⟩
  · rw [hlen]
    have hsub := List.dedup_sublist (descriptors.map (fun cds => cds.Descriptor.ID))
    have hle := hsub.length_le
    have hne : (descriptors.map (fun cds => cds.Descriptor.ID)).dedup.length
        ≠ (descriptors.map (fun cds => cds.Descriptor.ID)).length := by
      intro heq
      exact hdup (List.dedup_eq_self.mp (hsub.eq_of_length heq))
    calc (descriptors.map (fun cds => cds.Descriptor.ID)).dedup.length
        < (descriptors.map (fun cds => cds.Descriptor.ID)).length := lt_of_le_of_ne hle hne
      _ = descriptors.length := List.length_map _ _
  · show lookupChannel
      (descriptors.foldl (fun m c => mapInsert m c.Descriptor.ID (mkChannelShim c)) []) k = _
    rw [lookupChannel_foldl_insert]
    cases hf : descriptors.reverse.find? (fun cds => cds.Descriptor.ID == k) with
    | some c => simp
    | none => simp [lookupChannel]

/-- Witness for C10 at a concrete input: two descriptors both with ID 1; the
map keeps the shim built from the second one. -/
theorem newShim_duplicate_collapse_witness :
    (GetChannels (NewShim "x"
        [{ MsgType := (0 : Nat), Descriptor := { ID := 1, Priority := 0 } },
         { MsgType := (0 : Nat), Descriptor := { ID := 1, Priority := 1 } }] none)).length
      = (([{ MsgType := (0 : Nat), Descriptor := { ID := 1, Priority := 0 } },
           { MsgType := (0 : Nat), Descriptor := { ID := 1, Priority := 1 } }] :
            List (ChannelDescriptorShim Nat)).map
            (fun cds => cds.Descriptor.ID)).dedup.length ∧
    (GetChannels (NewShim "x"
        [{ MsgType := (0 : Nat), Descriptor := { ID := 1, Priority := 0 } },
         { MsgType := (0 : Nat), Descriptor := { ID := 1, Priority := 1 } }] none)).length
      < ([{ MsgType := (0 : Nat), Descriptor := { ID := 1, Priority := 0 } },
          { MsgType := (0 : Nat), Descriptor := { ID := 1, Priority := 1 } }] :
            List (ChannelDescriptorShim Nat)).length ∧
    lookupChannel (NewShim "x"
        [{ MsgType := (0 : Nat), Descriptor := { ID := 1, Priority := 0 } },
         { MsgType := (0 : Nat), Descriptor := { ID := 1, Priority := 1 } }] none).Channels 1
      = (([{ MsgType := (0 : Nat), Descriptor := { ID := 1, Priority := 0 } },
           { MsgType := (0 : Nat), Descriptor := { ID := 1, Priority := 1 } }] :
            List (ChannelDescriptorShim Nat)).reverse.find?
          (fun cds => cds.Descriptor.ID == 1)).map mkChannelShim :=
  newShim_duplicate_collapse "x"
    [{ MsgType := (0 : Nat), Descriptor := { ID := 1, Priority := 0 } },
     { MsgType := (0 : Nat), Descriptor := { ID := 1, Priority := 1 } }] none 1 (by decide)

end P2PShim
